import Mathlib

/-!
Verification of the per-user envelope-encryption and key-management core of
the family-tree record store.

The TypeScript sources are shallowly embedded:

* `EncryptionService` (server/src/services/encryption.service.ts) — master-key
  construction, PBKDF2 user-key derivation, user-key wrapping under the master
  key, field encryption/decryption, and the person-level convenience wrappers.
* `AuthService` (server/src/services/auth.service.ts) — `register` and `login`.
* The people routes (server/src/routes/people.ts) — the list and get-one
  handlers, together with the `authenticate` middleware's handling of the
  `X-User-Key` header.

Node's `crypto` AES-256-GCM primitive is not code of this repository; it is
modelled as an ideal AEAD: the ciphertext is the plaintext XORed with a
deterministic keystream derived from (key, iv), and the authentication tag is
a perfect MAC, an injective encoding of (key, iv, ciphertext).  Randomness
(IVs, salts, UUIDs) is passed to each operation as an explicit argument.
Bytes are `Nat` values below 256; byte strings are `List Nat`.
-/

set_option autoImplicit false

deriving instance DecidableEq for Except

namespace FamilyTree

/-! ### Ideal AEAD model of AES-256-GCM -/

/-- Deterministic keystream byte for position `i` under `(key, iv)`.  Stands in
for the AES-CTR keystream; any fixed function works for the functional claims,
this one depends on the key, the iv and the position. -/
def keystreamByte (key iv : List Nat) (i : Nat) : Nat :=
  ((key.foldl (fun a b => a * 257 + b + 1) 7) +
   (iv.foldl (fun a b => a * 263 + b + 1) 11) * 31 + i * 13) % 256

/-- XOR a byte list against the keystream starting at position `i`.  Applying
it twice with the same `(key, iv, i)` is the identity, which is exactly the
CTR-mode encrypt/decrypt symmetry. -/
def xorKs (key iv : List Nat) : Nat → List Nat → List Nat
  | _, [] => []
  | i, b :: rest => (b ^^^ keystreamByte key iv i) :: xorKs key iv (i + 1) rest

/-- Ideal authentication tag: a perfect MAC over `(key, iv, ciphertext)`.
The value 256 never occurs as a byte, so it acts as an unambiguous separator
and the encoding is injective component-wise on byte lists of fixed key
length. -/
def gcmTag (key iv ct : List Nat) : List Nat :=
  key ++ (256 :: (iv ++ (256 :: ct)))

theorem xorKs_xorKs (key iv : List Nat) (i : Nat) (l : List Nat) :
    xorKs key iv i (xorKs key iv i l) = l := by
  induction l generalizing i with
  | nil => rfl
  | cons b rest ih =>
      simp [xorKs, Nat.xor_cancel_right, ih]

theorem xorKs_length (key iv : List Nat) (i : Nat) (l : List Nat) :
    (xorKs key iv i l).length = l.length := by
  induction l generalizing i with
  | nil => rfl
  | cons b rest ih => simp [xorKs, ih]

/-- Equal tags force equal keys when the keys have equal length. -/
theorem gcmTag_inj_key {k1 k2 iv1 iv2 ct1 ct2 : List Nat}
    (hlen : k1.length = k2.length)
    (h : gcmTag k1 iv1 ct1 = gcmTag k2 iv2 ct2) : k1 = k2 := by
  unfold gcmTag at h
  exact (List.append_inj h hlen).1

/-- Equal tags under the same key and iv force equal ciphertexts. -/
theorem gcmTag_inj_ct {k iv ct1 ct2 : List Nat}
    (h : gcmTag k iv ct1 = gcmTag k iv ct2) : ct1 = ct2 := by
  unfold gcmTag at h
  have h1 := (List.cons.inj (List.append_inj h rfl).2).2
  have h2 := (List.append_inj h1 rfl).2
  exact (List.cons.inj h2).2

/-! ### Envelope and the serialized ciphertext value

`encrypt` returns either the empty string (for empty input) or
`JSON.stringify({iv, data, authTag})`; JSON serialization of the
hex-encoded triple is modelled as the `Envelope` structure itself. -/

/-- The `{iv, data, authTag}` triple produced by `encryptUserKey` and
`encrypt` (all three fields hex strings in the source, byte lists here). -/
structure Envelope where
  iv : List Nat
  data : List Nat
  authTag : List Nat
  deriving DecidableEq, Repr

/-- A value of the string type returned by `encrypt` and stored in the
encrypted columns: either the empty string or a serialized `Envelope`. -/
inductive EncValue where
  | empty : EncValue
  | env : Envelope → EncValue
  deriving DecidableEq, Repr

/-! ### Hex encoding and decoding (Node `Buffer` semantics) -/

/-- Value of one hex digit, `none` for a non-hex character. -/
def hexDigitVal (c : Char) : Option Nat :=
  if '0' ≤ c ∧ c ≤ '9' then some (c.toNat - '0'.toNat)
  else if 'a' ≤ c ∧ c ≤ 'f' then some (c.toNat - 'a'.toNat + 10)
  else if 'A' ≤ c ∧ c ≤ 'F' then some (c.toNat - 'A'.toNat + 10)
  else none

/-- Decode hex characters two at a time, stopping (as Node's
`Buffer.from(s, 'hex')` does) at the first pair that is not valid hex, and
dropping a trailing unpaired character. -/
def hexDecodeLoop : List Char → List Nat
  | c1 :: c2 :: rest =>
      match hexDigitVal c1, hexDigitVal c2 with
      | some h, some l => (16 * h + l) :: hexDecodeLoop rest
      | _, _ => []
  | _ => []

/-- Node `Buffer.from(s, 'hex')`: decodes as much as parses, never fails. -/
def bufferFromHex (s : String) : List Nat :=
  hexDecodeLoop s.data

/-- Lower-case hex character for a digit value below 16. -/
def hexChar (n : Nat) : Char :=
  if n < 10 then Char.ofNat ('0'.toNat + n) else Char.ofNat ('a'.toNat + n - 10)

/-- Two lower-case hex characters per byte. -/
def hexEncodeLoop : List Nat → List Char
  | [] => []
  | b :: rest => hexChar (b / 16) :: hexChar (b % 16) :: hexEncodeLoop rest

/-- Node `buf.toString('hex')`. -/
def hexEncode (l : List Nat) : String :=
  ⟨hexEncodeLoop l⟩

/-- Bytewise predicate: every entry is a byte value. -/
def isBytes (l : List Nat) : Prop := ∀ b ∈ l, b < 256

instance (l : List Nat) : Decidable (isBytes l) := by
  unfold isBytes; infer_instance

theorem hexDigitVal_hexChar {d : Nat} (hd : d < 16) :
    hexDigitVal (hexChar d) = some d := by
  interval_cases d <;> rfl

theorem hexDecodeLoop_encode {l : List Nat} (h : isBytes l) :
    hexDecodeLoop (hexEncodeLoop l) = l := by
  induction l with
  | nil => rfl
  | cons b rest ih =>
      have hb : b < 256 := h b (List.mem_cons_self b rest)
      have hhi : b / 16 < 16 := Nat.div_lt_of_lt_mul hb
      have hlo : b % 16 < 16 := Nat.mod_lt b (by norm_num)
      have hrest : isBytes rest := fun x hx => h x (List.mem_cons_of_mem b hx)
      simp only [hexEncodeLoop, hexDecodeLoop,
        hexDigitVal_hexChar hhi, hexDigitVal_hexChar hlo, ih hrest]
      congr 1
      omega

/-- Hex round trip: decoding the encoding of a byte list gives it back. -/
theorem bufferFromHex_hexEncode {l : List Nat} (h : isBytes l) :
    bufferFromHex (hexEncode l) = l := by
  unfold bufferFromHex hexEncode
  exact hexDecodeLoop_encode h

theorem hexEncode_inj {l1 l2 : List Nat} (h1 : isBytes l1) (h2 : isBytes l2)
    (h : hexEncode l1 = hexEncode l2) : l1 = l2 := by
  have := congrArg bufferFromHex h
  rwa [bufferFromHex_hexEncode h1, bufferFromHex_hexEncode h2] at this

/-! ### EncryptionService (server/src/services/encryption.service.ts)

The service object holds one field, `masterKey : Buffer`; it is embedded as an
explicit first argument `master : List Nat` to the methods that read it. -/

/-- Model of Node's `crypto.pbkdf2Sync(password, salt, iterations, keyLen,
'sha256')`: a deterministic pure function of all four inputs producing
`keyLen` bytes.  The PBKDF2 internals are not repository code; this stands in
for them with a deterministic byte-valued mix of password, salt and the
iteration count. -/
def pbkdf2Sync (password : String) (salt : List Nat) (iterations keyLen : Nat) :
    List Nat :=
  let pw := password.data.foldl (fun a c => (a * 131 + c.toNat + 1) % 1000000007) 3
  let st := salt.foldl (fun a b => (a * 257 + b + 1) % 1000000007) 5
  (List.range keyLen).map
    (fun i => (pw * 31 + st * 17 + iterations * 13 + i * 7 + 23) % 256)

/-- `deriveUserKey(password, salt)`: PBKDF2 with 100000 iterations and a
32-byte output. -/
def deriveUserKey (password : String) (salt : List Nat) : List Nat :=
  pbkdf2Sync password salt 100000 32

/-- `encryptUserKey(userKey)`: AES-256-GCM of the user key under the master
key; the random 16-byte iv is passed explicitly.  Returns the serialized
`{iv, data, authTag}` envelope. -/
def encryptUserKey (master : List Nat) (iv userKey : List Nat) : Envelope :=
  let encrypted := xorKs master iv 0 userKey
  { iv := iv, data := encrypted, authTag := gcmTag master iv encrypted }

/-- `decryptUserKey(encryptedKey)`: unwraps the stored envelope under the
master key; every failure (tag mismatch in the model) is caught and rethrown
as the single message the source uses. -/
def decryptUserKey (master : List Nat) (e : Envelope) : Except String (List Nat) :=
  if e.authTag = gcmTag master e.iv e.data
  then Except.ok (xorKs master e.iv 0 e.data)
  else Except.error "Failed to decrypt user key"

/-- String-to-bytes step of `cipher.update(data, 'utf8')`: the character
encoding is modelled by the injective code-point encoding. -/
def strToBytes (s : String) : List Nat :=
  s.data.map Char.toNat

/-- Bytes-to-string step of `decipher.update(..., 'utf8')`. -/
def bytesToStr (l : List Nat) : String :=
  ⟨l.map Char.ofNat⟩

/-- `encrypt(data, userKey)`: returns `''` for empty input, otherwise the
serialized AES-256-GCM envelope of the utf8 bytes under `userKey` with the
explicitly passed random iv. -/
def encrypt (data : String) (userKey : List Nat) (iv : List Nat) : EncValue :=
  if data = "" then EncValue.empty
  else
    let encrypted := xorKs userKey iv 0 (strToBytes data)
    EncValue.env { iv := iv, data := encrypted, authTag := gcmTag userKey iv encrypted }

/-- `decrypt(encrypted, userKey)`: `''` maps to `''`; otherwise parse the
envelope and decrypt, all failures surfacing as one error message. -/
def decrypt (encrypted : EncValue) (userKey : List Nat) : Except String String :=
  match encrypted with
  | EncValue.empty => Except.ok ""
  | EncValue.env e =>
      if e.authTag = gcmTag userKey e.iv e.data
      then Except.ok (bytesToStr (xorKs userKey e.iv 0 e.data))
      else Except.error "Failed to decrypt data"

/-- Constructor of `EncryptionService`: rejects a missing key or a hex string
whose length is not 64, then takes `Buffer.from(masterKeyHex, 'hex')` as the
master key. -/
def EncryptionService.make (masterKeyHex : String) : Except String (List Nat) :=
  if masterKeyHex = "" ∨ masterKeyHex.length ≠ 64
  then Except.error "Master key must be 32 bytes (64 hex characters)"
  else Except.ok (bufferFromHex masterKeyHex)

/-- `getEncryptionService()`: reads `MASTER_ENCRYPTION_KEY` from the
environment (modelled as an explicit `Option String`), errors when it is
absent or empty, then constructs the service. -/
def getEncryptionService (env : Option String) : Except String (List Nat) :=
  match env with
  | none => Except.error "MASTER_ENCRYPTION_KEY environment variable is required"
  | some k =>
      if k = ""
      then Except.error "MASTER_ENCRYPTION_KEY environment variable is required"
      else EncryptionService.make k

/-! ### Core cipher lemmas shared by several claims -/

/-- Unwrap inverts wrap, for arbitrary key and master lengths. -/
theorem decryptUserKey_encryptUserKey (master iv userKey : List Nat) :
    decryptUserKey master (encryptUserKey master iv userKey) =
      Except.ok userKey := by
  simp [decryptUserKey, encryptUserKey, xorKs_xorKs]

theorem bytesToStr_strToBytes (s : String) : bytesToStr (strToBytes s) = s := by
  unfold bytesToStr strToBytes
  cases s with
  | mk data =>
      simp only [List.map_map]
      congr 1
      have : ∀ c : Char, Char.ofNat c.toNat = c := fun c => Char.ofNat_toNat c
      calc data.map (Char.ofNat ∘ Char.toNat) = data.map id := List.map_congr_left (fun c _ => this c)
        _ = data := List.map_id data

/-- Field-level round trip under the same key. -/
theorem decrypt_encrypt (data : String) (userKey iv : List Nat) :
    decrypt (encrypt data userKey iv) userKey = Except.ok data := by
  unfold encrypt
  by_cases h : data = ""
  · simp [h, decrypt]
  · simp [h, decrypt, xorKs_xorKs, bytesToStr_strToBytes]

/-! ### AuthService (server/src/services/auth.service.ts)

JWT issuance is orthogonal to the key-management claims and is omitted from
the login/register results.  bcrypt is not repository code; its salted hash
is modelled as the pair of the salt and a deterministic digest, which is what
`bcrypt.compare` recomputes. -/

/-- Deterministic stand-in for the bcrypt digest of a password under a salt
at cost factor 12. -/
def bcryptDigest (password : String) (salt : Nat) : Nat :=
  password.data.foldl (fun a c => a * 131 + c.toNat + 1) (salt * 4099 + 12)

/-- A stored bcrypt hash: the randomly chosen salt together with the digest,
as recoverable from the hash string. -/
structure BCryptHash where
  salt : Nat
  digest : Nat
  deriving DecidableEq, Repr

/-- `bcrypt.hash(password, 12)` with the random salt passed explicitly. -/
def bcryptHash (password : String) (salt : Nat) : BCryptHash :=
  { salt := salt, digest := bcryptDigest password salt }

/-- `bcrypt.compare(password, hash)`. -/
def bcryptCompare (password : String) (h : BCryptHash) : Bool :=
  h.digest = bcryptDigest password h.salt

/-- A row of the `users` table (the columns the auth service reads and
writes).  `encryptionSalt` is stored hex-encoded; `encryptedUserKey` is the
serialized envelope column. -/
structure UserAccount where
  id : String
  email : String
  passwordHash : BCryptHash
  name : Option String
  emailVerified : Bool
  encryptionSalt : String
  encryptedUserKey : Envelope
  deriving DecidableEq, Repr

/-- The users table. -/
structure Db where
  users : List UserAccount
  deriving Repr

/-- `db.query.users.findFirst({where: eq(users.email, email)})`. -/
def findUserByEmail (db : Db) (email : String) : Option UserAccount :=
  db.users.find? (fun u => u.email = email)

/-- The non-token part of the object `login`/`register` return: the user
block plus the hex user key sent to the client for the session. -/
structure AuthResult where
  userId : String
  email : String
  name : Option String
  emailVerified : Bool
  userKeyHex : String
  deriving DecidableEq, Repr

/-- `AuthService.register`: rejects an existing email; hashes the password
with bcrypt; generates a salt, derives the user key from the password,
wraps it under the master key; inserts the user row; returns the fresh key
hex-encoded.  The random choices (bcrypt salt, 32-byte encryption salt,
16-byte wrap iv, uuid) are explicit arguments. -/
def register (master : List Nat) (db : Db) (email password : String)
    (name : Option String) (bcSalt : Nat) (encSalt : List Nat)
    (wrapIv : List Nat) (newId : String) :
    Except String (Db × AuthResult) :=
  if (findUserByEmail db email).isSome then Except.error "User already exists"
  else
    let passwordHash := bcryptHash password bcSalt
    let userKey := deriveUserKey password encSalt
    let encryptedUserKey := encryptUserKey master wrapIv userKey
    let user : UserAccount :=
      { id := newId, email := email, passwordHash := passwordHash,
        name := name, emailVerified := false,
        encryptionSalt := hexEncode encSalt,
        encryptedUserKey := encryptedUserKey }
    Except.ok (⟨db.users ++ [user]⟩,
      { userId := newId, email := email, name := name, emailVerified := false,
        userKeyHex := hexEncode userKey })

/-- `AuthService.login`: find the user, verify the bcrypt hash, re-derive the
user key from the submitted password and the stored salt, verify that the
stored wrapped key unwraps (discarding the unwrapped value), and return the
derived key hex-encoded. -/
def login (master : List Nat) (db : Db) (email password : String) :
    Except String AuthResult :=
  match findUserByEmail db email with
  | none => Except.error "Invalid credentials"
  | some user =>
      if bcryptCompare password user.passwordHash = false
      then Except.error "Invalid credentials"
      else
        let salt := bufferFromHex user.encryptionSalt
        let userKey := deriveUserKey password salt
        match decryptUserKey master user.encryptedUserKey with
        | Except.error _ => Except.error "Encryption key verification failed"
        | Except.ok _ =>
            Except.ok
              { userId := user.id, email := user.email, name := user.name,
                emailVerified := user.emailVerified,
                userKeyHex := hexEncode userKey }

/-- Modelled from the spec: no `resetPassword` operation appears in the
provided sources — only `register` and `login` are implemented in
`AuthService` — so the credential-service reset of §4.5 is modelled from the
spec's three steps: unwrap the existing UserKey via the MasterSecret (not via
the old password), recompute the authentication hash for the new password,
and re-wrap the same UserKey under the MasterSecret with a fresh iv,
persisting both alongside the unchanged salt. -/
def resetPassword (master : List Nat) (user : UserAccount)
    (newPassword : String) (bcSalt : Nat) (freshIv : List Nat) :
    Except String UserAccount :=
  match decryptUserKey master user.encryptedUserKey with
  | Except.error e => Except.error e
  | Except.ok userKey =>
      Except.ok
        { user with
          passwordHash := bcryptHash newPassword bcSalt,
          encryptedUserKey := encryptUserKey master freshIv userKey }

/-! ### Person objects and the person-level convenience wrappers -/

/-- The plaintext person object: the nine protected attributes plus the
non-sensitive columns of the `people` table that ride along through the
`...person` spreads. -/
structure Person where
  id : String
  familyTreeId : String
  firstName : Option String
  middleName : Option String
  lastName : Option String
  nickname : Option String
  birthDate : Option String
  deathDate : Option String
  notes : Option String
  address : Option String
  phone : Option String
  gender : Option String
  profileImage : Option String
  deriving DecidableEq, Repr

/-- A row of the `people` table: each protected attribute is the nullable
text column holding a serialized envelope. -/
structure EncPersonRow where
  id : String
  familyTreeId : String
  encryptedFirstName : Option EncValue
  encryptedMiddleName : Option EncValue
  encryptedLastName : Option EncValue
  encryptedNickname : Option EncValue
  encryptedBirthDate : Option EncValue
  encryptedDeathDate : Option EncValue
  encryptedNotes : Option EncValue
  encryptedAddress : Option EncValue
  encryptedPhone : Option EncValue
  gender : Option String
  profileImage : Option String
  deriving DecidableEq, Repr

/-- One field of `encryptPerson`: `person.f ? this.encrypt(person.f, userKey)
: null` — a `null`, `undefined` or empty-string attribute is falsy and maps
to `null`. -/
def encField (userKey : List Nat) (v : Option String) (iv : List Nat) :
    Option EncValue :=
  match v with
  | none => none
  | some s => if s = "" then none else some (encrypt s userKey iv)

/-- One field of `decryptPerson`: `person.encF ? this.decrypt(person.encF,
userKey) : null`; a stored empty string is falsy like `null`.  When an
envelope is present but the request carried no key, `createDecipheriv`
throws on the undefined key and `decrypt`'s catch rethrows its single
message. -/
def decField (userKey : Option (List Nat)) (v : Option EncValue) :
    Except String (Option String) :=
  match v with
  | none => Except.ok none
  | some EncValue.empty => Except.ok none
  | some (EncValue.env e) =>
      match userKey with
      | none => Except.error "Failed to decrypt data"
      | some k => (decrypt (EncValue.env e) k).map some

/-- `encryptPerson(person, userKey)`: encrypts the nine protected attributes
independently (each with its own fresh random iv, passed here as `ivs`),
clears the plaintext fields and keeps the rest of the object. -/
def encryptPerson (p : Person) (userKey : List Nat) (ivs : Nat → List Nat) :
    EncPersonRow :=
  { id := p.id, familyTreeId := p.familyTreeId,
    encryptedFirstName := encField userKey p.firstName (ivs 0),
    encryptedMiddleName := encField userKey p.middleName (ivs 1),
    encryptedLastName := encField userKey p.lastName (ivs 2),
    encryptedNickname := encField userKey p.nickname (ivs 3),
    encryptedBirthDate := encField userKey p.birthDate (ivs 4),
    encryptedDeathDate := encField userKey p.deathDate (ivs 5),
    encryptedNotes := encField userKey p.notes (ivs 6),
    encryptedAddress := encField userKey p.address (ivs 7),
    encryptedPhone := encField userKey p.phone (ivs 8),
    gender := p.gender, profileImage := p.profileImage }

/-- `decryptPerson(person, userKey)` as invoked by the routes, where the key
slot of the request context may be unset; the first failing field decryption
aborts the whole call, and the encrypted columns are cleared from the
result. -/
def decryptPersonOpt (row : EncPersonRow) (userKey : Option (List Nat)) :
    Except String Person := do
  let firstName ← decField userKey row.encryptedFirstName
  let middleName ← decField userKey row.encryptedMiddleName
  let lastName ← decField userKey row.encryptedLastName
  let nickname ← decField userKey row.encryptedNickname
  let birthDate ← decField userKey row.encryptedBirthDate
  let deathDate ← decField userKey row.encryptedDeathDate
  let notes ← decField userKey row.encryptedNotes
  let address ← decField userKey row.encryptedAddress
  let phone ← decField userKey row.encryptedPhone
  pure { id := row.id, familyTreeId := row.familyTreeId,
         firstName := firstName, middleName := middleName,
         lastName := lastName, nickname := nickname,
         birthDate := birthDate, deathDate := deathDate,
         notes := notes, address := address, phone := phone,
         gender := row.gender, profileImage := row.profileImage }

/-- `decryptPerson` with the key present, as used on the service level. -/
def decryptPerson (row : EncPersonRow) (userKey : List Nat) :
    Except String Person :=
  decryptPersonOpt row (some userKey)

/-! ### People routes (server/src/routes/people.ts) and the middleware -/

/-- A row of the `permissions` table as far as `checkAccess` reads it. -/
structure PermRow where
  userId : String
  familyTreeId : String
  role : String
  deriving DecidableEq, Repr

/-- The tables the people routes touch. -/
structure AppDb where
  people : List EncPersonRow
  permissions : List PermRow
  deriving Repr

/-- `checkAccess(userId, familyTreeId)`: some permission row matches. -/
def checkAccess (db : AppDb) (userId familyTreeId : String) : Bool :=
  db.permissions.any (fun p => p.userId = userId && p.familyTreeId = familyTreeId)

/-- Middleware step of `authenticate`: the context's `userKey` slot is set to
`Buffer.from(header, 'hex')` only when the `X-User-Key` header is present and
non-empty, and left unset otherwise. -/
def userKeyFromHeader (header : Option String) : Option (List Nat) :=
  match header with
  | none => none
  | some s => if s = "" then none else some (bufferFromHex s)

/-- Observable outcome of a route handler. -/
inductive RouteResult where
  | jsonError (msg : String) (status : Nat)
  | notFound
  | okPerson (p : Person)
  | okPeople (ps : List Person)
  | thrown (msg : String)
  deriving DecidableEq, Repr

/-- Handler `GET /` (list people): requires the `familyTreeId` query, checks
access, explicitly requires the key, then decrypts every row of the tree. -/
def listPeople (db : AppDb) (familyTreeId : Option String) (userId : String)
    (userKey : Option (List Nat)) : RouteResult :=
  match familyTreeId with
  | none => RouteResult.jsonError "familyTreeId required" 400
  | some tid =>
      if tid = "" then RouteResult.jsonError "familyTreeId required" 400
      else if checkAccess db userId tid = false
      then RouteResult.jsonError "Forbidden" 403
      else
        match userKey with
        | none => RouteResult.jsonError "Encryption key required" 400
        | some k =>
            let rows := db.people.filter (fun p => p.familyTreeId = tid)
            match rows.mapM (fun r => decryptPerson r k) with
            | Except.error m => RouteResult.thrown m
            | Except.ok ps => RouteResult.okPeople ps

/-- Handler `GET /:id` (get one person): fetches the row, checks access, and
passes whatever the context's `userKey` slot holds straight to
`decryptPerson` — there is no presence check on the key. -/
def getPerson (db : AppDb) (id : String) (userId : String)
    (userKey : Option (List Nat)) : RouteResult :=
  match db.people.find? (fun p => p.id = id) with
  | none => RouteResult.notFound
  | some person =>
      if checkAccess db userId person.familyTreeId = false
      then RouteResult.jsonError "Forbidden" 403
      else
        match decryptPersonOpt person userKey with
        | Except.error m => RouteResult.thrown m
        | Except.ok p => RouteResult.okPerson p

/-! ### Shared concrete inputs for witnesses and counterexamples -/

/-- A concrete 32-byte master key. -/
def masterC : List Nat := List.replicate 32 2

/-- A concrete 32-byte user key. -/
def userKeyC : List Nat := List.replicate 32 9

/-- A concrete 16-byte iv. -/
def ivC : List Nat := List.replicate 16 1

/-- A second concrete 32-byte key, different from `userKeyC`. -/
def userKeyC2 : List Nat := List.replicate 32 5

/-! ### Claims -/

/-- C3: field round trip — for every plaintext string and every 32-byte key,
decrypting the encryption of the plaintext under the key gives back exactly
the plaintext. -/
theorem C3_field_round_trip (p : String) (k : List Nat) (hk : k.length = 32)
    (iv : List Nat) : decrypt (encrypt p k iv) k = Except.ok p :=
  decrypt_encrypt p k iv

theorem C3_field_round_trip_witness :
    decrypt (encrypt "secret note" userKeyC ivC) userKeyC =
      Except.ok "secret note" :=
  C3_field_round_trip "secret note" userKeyC (by decide) ivC

/-- C5: wrap/unwrap inverse — for every 32-byte user key and a service
holding a 32-byte master key, unwrapping the wrap of the user key returns
exactly the original key bytes. -/
theorem C5_wrap_unwrap_inverse (master userKey iv : List Nat)
    (hm : master.length = 32) (hu : userKey.length = 32) :
    decryptUserKey master (encryptUserKey master iv userKey) =
      Except.ok userKey :=
  decryptUserKey_encryptUserKey master iv userKey

theorem C5_wrap_unwrap_inverse_witness :
    decryptUserKey masterC (encryptUserKey masterC ivC userKeyC) =
      Except.ok userKeyC :=
  C5_wrap_unwrap_inverse masterC userKeyC ivC (by decide) (by decide)

/-- C9: absent/empty handling — for every key, encrypting the empty plaintext
yields the empty marker (so never an envelope), and decrypting the empty
marker with any key yields the empty string without error. -/
theorem C9_absent_empty (userKey iv : List Nat) :
    encrypt "" userKey iv = EncValue.empty ∧
    decrypt EncValue.empty userKey = Except.ok "" :=
  ⟨by simp [encrypt], rfl⟩

/-- C2: password reset preserves the user key — for every account whose
stored envelope unwraps to a key `k` under the master secret, `resetPassword`
succeeds, persists a re-wrap of the same `k` under the fresh iv together with
the bcrypt hash of the new password and the unchanged salt, the new envelope
still unwraps to `k`, and every field envelope that decrypted under `k`
before the reset decrypts to the same plaintext under the key unwrapped from
the new envelope. -/
theorem C2_reset_preserves_key (master : List Nat) (user : UserAccount)
    (k : List Nat) (hk : decryptUserKey master user.encryptedUserKey = Except.ok k)
    (newPassword : String) (bcSalt : Nat) (freshIv : List Nat) :
    ∃ user', resetPassword master user newPassword bcSalt freshIv = Except.ok user' ∧
      user'.encryptedUserKey = encryptUserKey master freshIv k ∧
      decryptUserKey master user'.encryptedUserKey = Except.ok k ∧
      user'.passwordHash = bcryptHash newPassword bcSalt ∧
      user'.encryptionSalt = user.encryptionSalt ∧
      user'.id = user.id ∧ user'.email = user.email ∧
      ∀ (ev : EncValue) (p : String), decrypt ev k = Except.ok p →
        ∀ k2, decryptUserKey master user'.encryptedUserKey = Except.ok k2 →
          decrypt ev k2 = Except.ok p := by
  refine ⟨{ user with
      passwordHash := bcryptHash newPassword bcSalt,
      encryptedUserKey := encryptUserKey master freshIv k }, ?_, rfl, ?_, rfl, rfl, rfl, rfl, ?_⟩
  · unfold resetPassword
    rw [hk]
  · exact decryptUserKey_encryptUserKey master freshIv k
  · intro ev p hp k2 hk2
    have : k2 = k := by
      have h := decryptUserKey_encryptUserKey master freshIv k
      rw [h] at hk2
      exact (Except.ok.inj hk2).symm
    rwa [this]

theorem C2_reset_preserves_key_witness :
    ∃ user', resetPassword masterC
        { id := "u1", email := "a@b.c", passwordHash := bcryptHash "old" 1,
          name := none, emailVerified := false,
          encryptionSalt := hexEncode (List.replicate 32 3),
          encryptedUserKey := encryptUserKey masterC ivC userKeyC }
        "newpw" 2 (List.replicate 16 4) = Except.ok user' ∧
      user'.encryptedUserKey = encryptUserKey masterC (List.replicate 16 4) userKeyC ∧
      decryptUserKey masterC user'.encryptedUserKey = Except.ok userKeyC ∧
      user'.passwordHash = bcryptHash "newpw" 2 ∧
      user'.encryptionSalt = hexEncode (List.replicate 32 3) ∧
      user'.id = "u1" ∧ user'.email = "a@b.c" ∧
      ∀ (ev : EncValue) (p : String), decrypt ev userKeyC = Except.ok p →
        ∀ k2, decryptUserKey masterC user'.encryptedUserKey = Except.ok k2 →
          decrypt ev k2 = Except.ok p :=
  C2_reset_preserves_key masterC _ userKeyC
    (decryptUserKey_encryptUserKey masterC ivC userKeyC) "newpw" 2 (List.replicate 16 4)

/-- C8: uniform login failure — a login attempt that fails authentication
produces the identical generic error whether the email is unknown or the
password does not match the stored hash, so the two causes are
indistinguishable from the returned error. -/
theorem C8_login_uniform_error (master : List Nat) (db : Db)
    (email password : String) :
    (findUserByEmail db email = none →
      login master db email password = Except.error "Invalid credentials") ∧
    (∀ user, findUserByEmail db email = some user →
      bcryptCompare password user.passwordHash = false →
      login master db email password = Except.error "Invalid credentials") := by
  constructor
  · intro h
    unfold login
    rw [h]
  · intro user h hpw
    unfold login
    rw [h]
    simp [hpw]

theorem C8_login_uniform_error_witness :
    login masterC ⟨[]⟩ "a@b.c" "pw" = Except.error "Invalid credentials" ∧
    login masterC
        ⟨[{ id := "u1", email := "a@b.c", passwordHash := bcryptHash "right" 1,
            name := none, emailVerified := false,
            encryptionSalt := hexEncode (List.replicate 32 3),
            encryptedUserKey := encryptUserKey masterC ivC userKeyC }]⟩
        "a@b.c" "wrong" = Except.error "Invalid credentials" :=
  ⟨(C8_login_uniform_error masterC ⟨[]⟩ "a@b.c" "pw").1 rfl,
   (C8_login_uniform_error masterC _ "a@b.c" "wrong").2 _ rfl (by decide)⟩

/-! ### C1: source of the user key at login -/

/-- A concrete 32-byte encryption salt. -/
def saltC1 : List Nat := List.replicate 32 3

/-- An account whose stored envelope wraps `userKeyC`, which is not the
PBKDF2 derivation of its password `"pw"` under its salt. -/
def acctC1 : UserAccount :=
  { id := "u1", email := "a@b.c", passwordHash := bcryptHash "pw" 1,
    name := none, emailVerified := false,
    encryptionSalt := hexEncode saltC1,
    encryptedUserKey := encryptUserKey masterC ivC userKeyC }

/-- The users table holding only `acctC1`. -/
def dbC1 : Db := ⟨[acctC1]⟩

/-- C1 is false on the code: for the persisted account `acctC1` and its
matching password, login succeeds and returns the hex of the freshly derived
key, while the persisted envelope unwraps to `userKeyC`; the two hex keys
differ, so the value handed back is not the unwrap of `wrappedUserKey`. -/
theorem C1_counterexample :
    login masterC dbC1 "a@b.c" "pw" =
      Except.ok { userId := "u1", email := "a@b.c", name := none,
                  emailVerified := false,
                  userKeyHex := hexEncode (deriveUserKey "pw" saltC1) } ∧
    decryptUserKey masterC acctC1.encryptedUserKey = Except.ok userKeyC ∧
    hexEncode (deriveUserKey "pw" saltC1) ≠ hexEncode userKeyC := by
  set_option maxRecDepth 8000 in decide

/-- C1 (amended): at login the UserKey value returned to the caller is the
hex of the fresh PBKDF2 derivation from the submitted password and the
stored salt; the persisted `encryptedUserKey` is only required to unwrap
successfully, its unwrapped value being discarded, so the returned key
coincides with the unwrap exactly when the envelope wraps the derived key
(as `register` creates it). -/
theorem C1_login_key_source (master : List Nat) (db : Db)
    (email password : String) (user : UserAccount) (r : AuthResult)
    (hu : findUserByEmail db email = some user)
    (hr : login master db email password = Except.ok r) :
    r.userKeyHex =
      hexEncode (deriveUserKey password (bufferFromHex user.encryptionSalt)) ∧
    (decryptUserKey master user.encryptedUserKey).isOk = true ∧
    (∀ k, decryptUserKey master user.encryptedUserKey = Except.ok k →
      k = deriveUserKey password (bufferFromHex user.encryptionSalt) →
      r.userKeyHex = hexEncode k) := by
  unfold login at hr
  rw [hu] at hr
  by_cases hc : bcryptCompare password user.passwordHash = false
  · simp [hc] at hr
  · cases hdec : decryptUserKey master user.encryptedUserKey with
    | error e => simp [hc, hdec] at hr
    | ok k0 =>
        simp [hc, hdec] at hr
        subst hr
        refine ⟨rfl, rfl, ?_⟩
        intro k hk hkd
        rw [hkd]

/-- The register-consistent account: its envelope wraps exactly the key
derived from its password and salt. -/
def acctC1w : UserAccount :=
  { id := "u1", email := "a@b.c", passwordHash := bcryptHash "pw" 1,
    name := none, emailVerified := false,
    encryptionSalt := hexEncode saltC1,
    encryptedUserKey := encryptUserKey masterC ivC (deriveUserKey "pw" saltC1) }

theorem C1_login_key_source_witness :
    { userId := "u1", email := "a@b.c", name := none, emailVerified := false,
      userKeyHex :=
        hexEncode (deriveUserKey "pw" (bufferFromHex acctC1w.encryptionSalt))
      : AuthResult }.userKeyHex =
      hexEncode (deriveUserKey "pw" (bufferFromHex acctC1w.encryptionSalt)) ∧
    (decryptUserKey masterC acctC1w.encryptedUserKey).isOk = true := by
  have h := C1_login_key_source masterC ⟨[acctC1w]⟩ "a@b.c" "pw" acctC1w
    { userId := "u1", email := "a@b.c", name := none, emailVerified := false,
      userKeyHex :=
        hexEncode (deriveUserKey "pw" (bufferFromHex acctC1w.encryptionSalt)) }
    (by decide) (by decide)
  exact ⟨h.1, h.2.1⟩

/-! ### C4: fail closed on verification failure -/

/-- Flip bit `bit` of the byte at position `j`. -/
def flipBit (l : List Nat) (j bit : Nat) : List Nat :=
  l.set j ((l.getD j 0) ^^^ 2 ^ bit)

theorem xor_two_pow_ne (x bit : Nat) : x ^^^ 2 ^ bit ≠ x := by
  intro h
  have h2 : x ^^^ (x ^^^ 2 ^ bit) = x ^^^ x := congrArg (x ^^^ ·) h
  rw [Nat.xor_self, ← Nat.xor_assoc, Nat.xor_self, Nat.zero_xor] at h2
  have h3 : 0 < 2 ^ bit := pow_pos (by norm_num) bit
  omega

/-- Flipping a bit inside the list changes the list. -/
theorem flipBit_ne {l : List Nat} {j : Nat} (hj : j < l.length) (bit : Nat) :
    flipBit l j bit ≠ l := by
  intro h
  have hget := congrArg (fun t => t.getD j 0) h
  simp only [flipBit] at hget
  rw [List.getD_eq_getElem _ _ (by simpa using hj)] at hget
  rw [List.getElem_set_self _] at hget
  rw [List.getD_eq_getElem _ _ hj] at hget
  exact xor_two_pow_ne _ bit hget

/-- C4: fail closed — an envelope produced by `encrypt` under a 32-byte key
decrypts to an error (and never to any plaintext) under every different
32-byte key, and after flipping any single bit of its ciphertext or of its
authTag; likewise an envelope produced by `encryptUserKey` fails to unwrap
under a different 32-byte master key, and after flipping any single bit of
its ciphertext or of its authTag even under the correct master key. -/
theorem C4_fail_closed (p : String) (k1 iv : List Nat) (e : Envelope)
    (hk1 : k1.length = 32) (hp : p ≠ "")
    (he : encrypt p k1 iv = EncValue.env e) :
    (∀ k2, k2.length = 32 → k2 ≠ k1 →
      decrypt (EncValue.env e) k2 = Except.error "Failed to decrypt data") ∧
    (∀ j bit, j < e.data.length →
      decrypt (EncValue.env { e with data := flipBit e.data j bit }) k1 =
        Except.error "Failed to decrypt data") ∧
    (∀ j bit, j < e.authTag.length →
      decrypt (EncValue.env { e with authTag := flipBit e.authTag j bit }) k1 =
        Except.error "Failed to decrypt data") ∧
    (∀ uk m1 m2, m1.length = 32 → m2.length = 32 → m2 ≠ m1 →
      decryptUserKey m2 (encryptUserKey m1 iv uk) =
        Except.error "Failed to decrypt user key") ∧
    (∀ uk m1 j bit, j < (encryptUserKey m1 iv uk).data.length →
      decryptUserKey m1
        { encryptUserKey m1 iv uk with
          data := flipBit (encryptUserKey m1 iv uk).data j bit } =
        Except.error "Failed to decrypt user key") ∧
    (∀ uk m1 j bit, j < (encryptUserKey m1 iv uk).authTag.length →
      decryptUserKey m1
        { encryptUserKey m1 iv uk with
          authTag := flipBit (encryptUserKey m1 iv uk).authTag j bit } =
        Except.error "Failed to decrypt user key") := by
  have he' : e = { iv := iv, data := xorKs k1 iv 0 (strToBytes p),
                   authTag := gcmTag k1 iv (xorKs k1 iv 0 (strToBytes p)) } := by
    unfold encrypt at he
    rw [if_neg hp] at he
    exact (EncValue.env.inj he).symm
  have htag : e.authTag = gcmTag k1 e.iv e.data := by rw [he']
  refine ⟨?_, ?_, ?_, ?_, ?_, ?_⟩
  · intro k2 hk2 hne
    simp only [decrypt]
    rw [if_neg]
    intro habs
    rw [htag] at habs
    exact hne (gcmTag_inj_key (hk1.trans hk2.symm) habs).symm
  · intro j bit hj
    simp only [decrypt]
    rw [if_neg]
    intro habs
    have habs' : e.authTag = gcmTag k1 e.iv (flipBit e.data j bit) := habs
    rw [htag] at habs'
    exact flipBit_ne hj bit (gcmTag_inj_ct habs').symm
  · intro j bit hj
    simp only [decrypt]
    rw [if_neg]
    intro habs
    have habs' : flipBit e.authTag j bit = e.authTag := habs.trans htag.symm
    exact flipBit_ne hj bit habs'
  · intro uk m1 m2 hm1 hm2 hne
    simp only [decryptUserKey, encryptUserKey]
    rw [if_neg]
    intro habs
    exact hne (gcmTag_inj_key (hm1.trans hm2.symm) habs).symm
  · intro uk m1 j bit hj
    simp only [decryptUserKey, encryptUserKey]
    rw [if_neg]
    intro habs
    have habs' : gcmTag m1 iv (xorKs m1 iv 0 uk) =
        gcmTag m1 iv (flipBit (xorKs m1 iv 0 uk) j bit) := habs
    exact flipBit_ne hj bit (gcmTag_inj_ct habs').symm
  · intro uk m1 j bit hj
    simp only [decryptUserKey, encryptUserKey]
    rw [if_neg]
    intro habs
    have habs' : flipBit (gcmTag m1 iv (xorKs m1 iv 0 uk)) j bit =
        gcmTag m1 iv (xorKs m1 iv 0 uk) := habs
    exact flipBit_ne hj bit habs'

/-- A concrete envelope produced by `encrypt` under `userKeyC`. -/
def envC4 : Envelope :=
  { iv := ivC, data := xorKs userKeyC ivC 0 (strToBytes "x"),
    authTag := gcmTag userKeyC ivC (xorKs userKeyC ivC 0 (strToBytes "x")) }

theorem C4_fail_closed_witness :
    decrypt (EncValue.env envC4) userKeyC2 =
      Except.error "Failed to decrypt data" ∧
    decrypt (EncValue.env { envC4 with data := flipBit envC4.data 0 0 }) userKeyC =
      Except.error "Failed to decrypt data" ∧
    decrypt (EncValue.env { envC4 with authTag := flipBit envC4.authTag 0 0 }) userKeyC =
      Except.error "Failed to decrypt data" ∧
    decryptUserKey userKeyC2 (encryptUserKey masterC ivC userKeyC) =
      Except.error "Failed to decrypt user key" ∧
    decryptUserKey masterC
      { encryptUserKey masterC ivC userKeyC with
        data := flipBit (encryptUserKey masterC ivC userKeyC).data 0 0 } =
      Except.error "Failed to decrypt user key" ∧
    decryptUserKey masterC
      { encryptUserKey masterC ivC userKeyC with
        authTag := flipBit (encryptUserKey masterC ivC userKeyC).authTag 0 0 } =
      Except.error "Failed to decrypt user key" := by
  have h := C4_fail_closed "x" userKeyC ivC envC4 (by decide) (by decide) (by decide)
  exact ⟨h.1 userKeyC2 (by decide) (by decide),
         h.2.1 0 0 (by decide),
         h.2.2.1 0 0 (by decide),
         h.2.2.2.1 userKeyC masterC userKeyC2 (by decide) (by decide) (by decide),
         h.2.2.2.2.1 userKeyC masterC 0 0 (by decide),
         h.2.2.2.2.2 userKeyC masterC 0 0 (by decide)⟩

/-! ### C6: master-secret configuration -/

/-- Decoding a list of characters that are all valid hex digits yields one
byte per pair. -/
theorem hexDecodeLoop_length_allValid :
    ∀ cs : List Char, (∀ c ∈ cs, (hexDigitVal c).isSome = true) →
      (hexDecodeLoop cs).length = cs.length / 2
  | [], _ => rfl
  | [_], _ => by simp [hexDecodeLoop]
  | c1 :: c2 :: rest, h => by
      have h1 : (hexDigitVal c1).isSome = true := h c1 (by simp)
      have h2 : (hexDigitVal c2).isSome = true := h c2 (by simp)
      obtain ⟨v1, hv1⟩ := Option.isSome_iff_exists.mp h1
      obtain ⟨v2, hv2⟩ := Option.isSome_iff_exists.mp h2
      have ih := hexDecodeLoop_length_allValid rest
        (fun c hc => h c (by simp [hc]))
      simp only [hexDecodeLoop, hv1, hv2, List.length_cons, ih]
      omega

/-- A 64-character string of non-hex characters: it passes the constructor's
length check yet decodes to zero bytes. -/
def zKey64 : String := ⟨List.replicate 64 'z'⟩

/-- C6 is false on the code: the constructor validates only the length of
the hex string, not that it decodes to 32 bytes — with a 64-character
non-hex secret, construction succeeds and the master key actually used is
empty, not 32 bytes. -/
theorem C6_counterexample :
    EncryptionService.make zKey64 = Except.ok [] ∧
    (bufferFromHex zKey64).length ≠ 32 := by
  decide

/-- C6 (amended): construction fails with the configuration error whenever
the secret is absent, empty, or not exactly 64 characters long — there is no
default value — and when the 64 characters are all valid hex digits the
master key actually used is exactly 32 bytes; but a 64-character secret
containing an invalid hex character is accepted, with the key silently
truncated at the first invalid pair. -/
theorem C6_master_key_config (s : String) :
    getEncryptionService none =
      Except.error "MASTER_ENCRYPTION_KEY environment variable is required" ∧
    (s.length ≠ 64 →
      EncryptionService.make s =
        Except.error "Master key must be 32 bytes (64 hex characters)") ∧
    (s.length = 64 → (∀ c ∈ s.data, (hexDigitVal c).isSome = true) →
      EncryptionService.make s = Except.ok (bufferFromHex s) ∧
      (bufferFromHex s).length = 32) := by
  refine ⟨rfl, ?_, ?_⟩
  · intro hlen
    unfold EncryptionService.make
    rw [if_pos (Or.inr hlen)]
  · intro hlen hhex
    have hne : ¬(s = "" ∨ s.length ≠ 64) := by
      rintro (h | h)
      · rw [h] at hlen
        exact absurd hlen (by decide)
      · exact h hlen
    constructor
    · unfold EncryptionService.make
      rw [if_neg hne]
    · have hdata : s.data.length = 64 := hlen
      unfold bufferFromHex
      rw [hexDecodeLoop_length_allValid s.data hhex, hdata]

/-- A valid 64-character hex secret. -/
def hex64C : String := ⟨List.replicate 64 '0'⟩

theorem C6_master_key_config_witness :
    (getEncryptionService none =
      Except.error "MASTER_ENCRYPTION_KEY environment variable is required" ∧
     EncryptionService.make hex64C = Except.ok (bufferFromHex hex64C) ∧
     (bufferFromHex hex64C).length = 32) ∧
    EncryptionService.make "short" =
      Except.error "Master key must be 32 bytes (64 hex characters)" := by
  have h1 := C6_master_key_config hex64C
  have h2 := C6_master_key_config "short"
  exact ⟨⟨h1.1, h1.2.2 (by decide) (by decide)⟩, h2.2.1 (by decide)⟩

/-! ### C7: missing per-request key header -/

/-- JS truthiness of a stored encrypted column: `null`/`undefined` and the
empty string are falsy, a serialized envelope is truthy. -/
def evTruthy : Option EncValue → Bool
  | none => false
  | some EncValue.empty => false
  | some (EncValue.env _) => true

/-- The person a keyless `decryptPerson` produces when no column holds an
envelope: every protected attribute `null`, the rest copied from the row. -/
def nullFill (r : EncPersonRow) : Person :=
  { id := r.id, familyTreeId := r.familyTreeId,
    firstName := none, middleName := none, lastName := none, nickname := none,
    birthDate := none, deathDate := none, notes := none, address := none,
    phone := none, gender := r.gender, profileImage := r.profileImage }

theorem decField_none_cases (v : Option EncValue) :
    decField none v = Except.ok none ∨
    decField none v = Except.error "Failed to decrypt data" := by
  rcases v with _ | _ | _
  · exact Or.inl rfl
  · exact Or.inl rfl
  · exact Or.inr rfl

theorem except_bind_ok {ε α β : Type} (a : α) (f : α → Except ε β) :
    (Except.ok a >>= f : Except ε β) = f a := rfl

theorem except_bind_error {ε α β : Type} (e : ε) (f : α → Except ε β) :
    (Except.error e >>= f : Except ε β) = Except.error e := rfl

theorem bind_decField_cases {β : Type} (v : Option EncValue)
    (f : Option String → Except String β) (b : β)
    (hf : f none = Except.error "Failed to decrypt data" ∨ f none = Except.ok b) :
    (decField none v >>= f) = Except.error "Failed to decrypt data" ∨
    (decField none v >>= f) = Except.ok b := by
  rcases decField_none_cases v with h | h <;> rw [h]
  · exact hf
  · exact Or.inl rfl

/-- With no key in the context, `decryptPerson` either throws its single
decryption error or returns the row with every protected attribute null. -/
theorem decryptPersonOpt_none (row : EncPersonRow) :
    decryptPersonOpt row none = Except.error "Failed to decrypt data" ∨
    decryptPersonOpt row none = Except.ok (nullFill row) := by
  unfold decryptPersonOpt
  refine bind_decField_cases _ _ _ ?_
  refine bind_decField_cases _ _ _ ?_
  refine bind_decField_cases _ _ _ ?_
  refine bind_decField_cases _ _ _ ?_
  refine bind_decField_cases _ _ _ ?_
  refine bind_decField_cases _ _ _ ?_
  refine bind_decField_cases _ _ _ ?_
  refine bind_decField_cases _ _ _ ?_
  refine bind_decField_cases _ _ _ ?_
  exact Or.inr rfl

/-- A stored person with no envelope in any protected column. -/
def rowNullsC7 : EncPersonRow :=
  { id := "p1", familyTreeId := "t1",
    encryptedFirstName := none, encryptedMiddleName := none,
    encryptedLastName := none, encryptedNickname := none,
    encryptedBirthDate := none, encryptedDeathDate := none,
    encryptedNotes := none, encryptedAddress := none, encryptedPhone := none,
    gender := some "female", profileImage := none }

/-- A stored person with one protected column holding an envelope. -/
def rowEncC7 : EncPersonRow :=
  { id := "p2", familyTreeId := "t1",
    encryptedFirstName := none, encryptedMiddleName := none,
    encryptedLastName := none, encryptedNickname := none,
    encryptedBirthDate := none, encryptedDeathDate := none,
    encryptedNotes := some (encrypt "secret note" userKeyC ivC),
    encryptedAddress := none, encryptedPhone := none,
    gender := none, profileImage := none }

/-- Tables for the route counterexample: both rows live in tree `t1`, which
user `u1` may access. -/
def dbC7 : AppDb :=
  { people := [rowNullsC7, rowEncC7],
    permissions := [{ userId := "u1", familyTreeId := "t1", role := "owner" }] }

/-- C7 is false on the code: with the `X-User-Key` header absent, the
get-one endpoint is never rejected with the explicit key-required error —
it succeeds silently with null-filled protected fields when the row holds no
envelope, and it fails with the generic decryption error when one is
present. -/
theorem C7_counterexample :
    getPerson dbC7 "p1" "u1" (userKeyFromHeader none) =
      RouteResult.okPerson (nullFill rowNullsC7) ∧
    getPerson dbC7 "p2" "u1" (userKeyFromHeader none) =
      RouteResult.thrown "Failed to decrypt data" ∧
    getPerson dbC7 "p1" "u1" (userKeyFromHeader none) ≠
      RouteResult.jsonError "Encryption key required" 400 ∧
    getPerson dbC7 "p2" "u1" (userKeyFromHeader none) ≠
      RouteResult.jsonError "Encryption key required" 400 := by
  decide

/-- C7 (amended): the list endpoint does reject a missing key with the
explicit "Encryption key required" error, but the get-one endpoint performs
no such check: it never produces that rejection, and with the key absent it
either throws the generic decryption error (some protected column holds an
envelope) or silently succeeds with every protected field null (none does).
-/
theorem C7_key_header_handling (db : AppDb) (tid id userId : String)
    (person : EncPersonRow) :
    (tid ≠ "" → checkAccess db userId tid = true →
      listPeople db (some tid) userId none =
        RouteResult.jsonError "Encryption key required" 400) ∧
    (∀ key, getPerson db id userId key ≠
      RouteResult.jsonError "Encryption key required" 400) ∧
    (db.people.find? (fun p => p.id = id) = some person →
      checkAccess db userId person.familyTreeId = true →
      getPerson db id userId none = RouteResult.thrown "Failed to decrypt data" ∨
      getPerson db id userId none = RouteResult.okPerson (nullFill person)) := by
  refine ⟨?_, ?_, ?_⟩
  · intro htid hacc
    unfold listPeople
    simp [htid, hacc]
  · intro key
    unfold getPerson
    cases hf : db.people.find? (fun p => p.id = id) with
    | none => simp
    | some p =>
        by_cases hacc : checkAccess db userId p.familyTreeId = false
        · simp [hacc]
        · cases hd : decryptPersonOpt p key <;> simp [hacc, hd]
  · intro hf hacc
    unfold getPerson
    rw [hf]
    rcases decryptPersonOpt_none person with hd | hd <;> simp [hacc, hd]

theorem C7_key_header_handling_witness :
    listPeople dbC7 (some "t1") "u1" none =
      RouteResult.jsonError "Encryption key required" 400 ∧
    getPerson dbC7 "p1" "u1" (some userKeyC) ≠
      RouteResult.jsonError "Encryption key required" 400 ∧
    (getPerson dbC7 "p1" "u1" none = RouteResult.thrown "Failed to decrypt data" ∨
     getPerson dbC7 "p1" "u1" none = RouteResult.okPerson (nullFill rowNullsC7)) := by
  have h := C7_key_header_handling dbC7 "t1" "p1" "u1" rowNullsC7
  exact ⟨h.1 (by decide) (by decide), h.2.1 (some userKeyC),
         h.2.2 (by decide) (by decide)⟩

/-! ### C10: person-level round trip -/

/-- The normalization the person round trip applies to each protected
attribute: non-empty strings survive, empty or missing values become null. -/
def normalizeField : Option String → Option String
  | none => none
  | some s => if s = "" then none else some s

theorem decField_encField (k : List Nat) (v : Option String) (iv : List Nat) :
    decField (some k) (encField k v iv) = Except.ok (normalizeField v) := by
  cases v with
  | none => rfl
  | some s =>
      by_cases hs : s = ""
      · subst hs
        rfl
      · have hd := decrypt_encrypt s k iv
        simp only [encField, if_neg hs, normalizeField]
        cases henv : encrypt s k iv with
        | empty =>
            rw [henv] at hd
            simp only [decrypt, Except.ok.injEq] at hd
            exact absurd hd.symm hs
        | env e =>
            rw [henv] at hd
            simp [decField, hd, hs, Except.map]

/-- C10: person-level round trip — decrypting the encryption of a person
object under the same 32-byte key returns each protected attribute unchanged
when it was a non-empty string and null when it was empty or missing, and
carries every non-protected attribute through unchanged. -/
theorem C10_person_round_trip (p : Person) (k : List Nat) (hk : k.length = 32)
    (ivs : Nat → List Nat) :
    decryptPerson (encryptPerson p k ivs) k =
      Except.ok
        { p with
          firstName := normalizeField p.firstName,
          middleName := normalizeField p.middleName,
          lastName := normalizeField p.lastName,
          nickname := normalizeField p.nickname,
          birthDate := normalizeField p.birthDate,
          deathDate := normalizeField p.deathDate,
          notes := normalizeField p.notes,
          address := normalizeField p.address,
          phone := normalizeField p.phone } := by
  unfold decryptPerson decryptPersonOpt encryptPerson
  simp only [decField_encField, except_bind_ok]
  rfl

/-- A person mixing non-empty, empty and missing protected attributes. -/
def personC10 : Person :=
  { id := "p9", familyTreeId := "t1",
    firstName := some "Ada", middleName := some "", lastName := none,
    nickname := some "A", birthDate := some "1815-12-10", deathDate := none,
    notes := some "secret note", address := none, phone := some "",
    gender := some "female", profileImage := none }

theorem C10_person_round_trip_witness :
    decryptPerson (encryptPerson personC10 userKeyC (fun _ => ivC)) userKeyC =
      Except.ok
        { id := "p9", familyTreeId := "t1",
          firstName := some "Ada", middleName := none, lastName := none,
          nickname := some "A", birthDate := some "1815-12-10",
          deathDate := none, notes := some "secret note", address := none,
          phone := none, gender := some "female", profileImage := none } := by
  have h := C10_person_round_trip personC10 userKeyC (by decide) (fun _ => ivC)
  rw [h]
  decide

end FamilyTree
